import Mathlib

/-!
Verification of the BTEC document-generator (`script.py`).

Python strings are modelled as `List Char` (`PyStr`); Python `dict`s as
insertion-ordered association lists; the rich-text document as a nested
structure of tables / rows / cells / paragraphs / runs, mirroring the
python-docx objects the code traverses.  Each Lean definition below is a
direct translation of the identically-named Python function.
-/

set_option maxRecDepth 100000

namespace Btec

/-- Python `str` modelled as a list of characters. -/
abbrev PyStr := List Char

/-- Convenience: a Lean string literal as a `PyStr`. -/
def strL (s : String) : PyStr := s.toList

/-- Python `s.split(sep)` for a single-character separator: splits on every
occurrence, keeps empty pieces, and yields `[""]` on the empty string. -/
def pySplit (sep : Char) : PyStr → List PyStr
  | [] => [[]]
  | c :: rest =>
    match pySplit sep rest with
    | [] => [[c]]
    | g :: gs => if c = sep then [] :: g :: gs else (c :: g) :: gs

/-- Python `s.strip()`: remove leading and trailing whitespace. -/
def pyStrip (s : PyStr) : PyStr :=
  List.rdropWhile Char.isWhitespace (s.dropWhile Char.isWhitespace)

/-- Python `s.lstrip(c)` for a single character. -/
def pyLStripChar (c : Char) (s : PyStr) : PyStr := s.dropWhile (· = c)

/-- Python `s.rstrip(c)` for a single character. -/
def pyRStripChar (c : Char) (s : PyStr) : PyStr := List.rdropWhile (· = c) s

/-- Python `pat in s` (substring containment; the empty pattern is contained
in everything). -/
def pyContains (s pat : PyStr) : Bool := decide (pat <:+: s)

/-- Python `s.startswith(p)`. -/
def pyStartsWith (s p : PyStr) : Bool := p.isPrefixOf s

/-- Python `s.endswith(p)`. -/
def pyEndsWith (s p : PyStr) : Bool := p.isSuffixOf s

/-- Helper for `pyReplace`: replace every non-overlapping occurrence of the
non-empty pattern `p :: ps`, scanning left to right.  The fuel argument
(always instantiated with the length of the scanned string, which bounds the
number of steps) keeps the recursion structural so that it evaluates inside
the kernel. -/
def pyReplaceAux (p : Char) (ps repl : List Char) : Nat → List Char → List Char
  | _, [] => []
  | 0, rest => rest
  | fuel + 1, c :: rest =>
    if (p :: ps).isPrefixOf (c :: rest) then
      repl ++ pyReplaceAux p ps repl fuel (rest.drop ps.length)
    else
      c :: pyReplaceAux p ps repl fuel rest

/-- Python `s.replace(pat, repl)`: all non-overlapping occurrences, left to
right; an empty pattern inserts `repl` before, between and after every
character, as Python does. -/
def pyReplace (s pat repl : PyStr) : PyStr :=
  match pat with
  | [] => repl ++ (s.map (fun c => c :: repl)).flatten
  | p :: ps => pyReplaceAux p ps repl s.length s

/-- The one-character string `"Y"`. -/
def strY : PyStr := ['Y']

/-- The one-character string `"N"`. -/
def strN : PyStr := ['N']

/-- The canonical tokenization used by `process_criteria`:
`[c.strip() for c in s.split(',') if c.strip()]`. -/
def cleanCriteria (s : PyStr) : List PyStr :=
  ((pySplit ',' s).map pyStrip).filter (fun c => !c.isEmpty)

/-- Function `process_criteria` from `script.py`: split and clean both fields, compute
the Y/N achievement vector over the full cleaned targeted list, then pad both
lists with empty strings and slice to `max_criteria`. -/
def process_criteria (targeted achieved : PyStr) (max_criteria : Nat) :
    List PyStr × List PyStr :=
  let targeted_list := cleanCriteria targeted
  let achieved_list := cleanCriteria achieved
  let achieved_yn := targeted_list.map (fun t => if t ∈ achieved_list then strY else strN)
  let targeted_padded := targeted_list ++ List.replicate (max_criteria - targeted_list.length) []
  let achieved_padded := achieved_yn ++ List.replicate (max_criteria - achieved_yn.length) []
  (targeted_padded.take max_criteria, achieved_padded.take max_criteria)

example : process_criteria (strL "A,B,C,D") (strL "A,D") 3 =
    ([strL "A", strL "B", strL "C"], [strY, strN, strN]) := by decide

example : process_criteria (strL "A, B, C") (strL "B") 3 =
    ([strL "A", strL "B", strL "C"], [strN, strY, strN]) := by decide

example : process_criteria (strL "") (strL "") 3 =
    ([[], [], []], [[], [], []]) := by decide

/-- A rich-text paragraph: the texts of its formatting runs, in order. -/
structure Paragraph where
  runs : List PyStr
deriving DecidableEq

/-- A table cell: its paragraphs. -/
structure Cell where
  paragraphs : List Paragraph
deriving DecidableEq

/-- A table row: its cells. -/
structure TableRow where
  cells : List Cell
deriving DecidableEq

/-- A table: its rows. -/
structure Table where
  rows : List TableRow
deriving DecidableEq

/-- A document: its body paragraphs (outside any table) and its tables. -/
structure Document where
  paragraphs : List Paragraph
  tables : List Table
deriving DecidableEq

/-- Python `''.join(run.text for run in paragraph.runs)`. -/
def paragraph_full_text (p : Paragraph) : PyStr := p.runs.flatten

/-- The loop body of `replace_text_in_paragraph`: fold the replacement map
over the concatenated text, tracking the `modified` flag. -/
def apply_replacements (replacements : List (PyStr × PyStr)) (s : PyStr) :
    PyStr × Bool :=
  replacements.foldl
    (fun acc kv =>
      if pyContains acc.1 kv.1 then (pyReplace acc.1 kv.1 kv.2, true) else acc)
    (s, false)

/-- Function `replace_text_in_paragraph` from `script.py`: concatenate the run texts,
substitute every map entry that occurs, and if anything matched clear all
runs and put the whole result into the first run (adding one if none). -/
def replace_text_in_paragraph (p : Paragraph) (replacements : List (PyStr × PyStr)) :
    Paragraph :=
  let res := apply_replacements replacements (paragraph_full_text p)
  if res.2 then
    match p.runs with
    | [] => ⟨[res.1]⟩
    | _ :: rest => ⟨res.1 :: rest.map (fun _ => [])⟩
  else p

/-- Function `replace_placeholders` from `script.py`: substitute in every paragraph of
every cell of every row of every table; body paragraphs are not scanned. -/
def replace_placeholders (doc : Document) (replacements : List (PyStr × PyStr)) :
    Document :=
  ⟨doc.paragraphs,
    doc.tables.map (fun t =>
      ⟨t.rows.map (fun r =>
        ⟨r.cells.map (fun c =>
          ⟨c.paragraphs.map (fun p => replace_text_in_paragraph p replacements)⟩)⟩)⟩)⟩

/-- Python `set.add` on an insertion-ordered list model of a set. -/
def setAdd (s : List PyStr) (x : PyStr) : List PyStr :=
  if x ∈ s then s else s ++ [x]

/-- The en-dash character used by the variant generator. -/
def enDash : Char := '–'

/-- Function `generate_placeholder_variants` from `script.py`. -/
def generate_placeholder_variants (placeholder : PyStr) : List PyStr :=
  let raw := placeholder
  let variants := setAdd [] raw
  let variants :=
    if pyStartsWith raw ['['] && !pyEndsWith raw [']'] then
      setAdd variants (raw ++ [']'])
    else variants
  let variants :=
    if pyContains raw [enDash] then
      setAdd variants (pyReplace raw [enDash] ['-'])
    else variants
  let variants :=
    if pyContains raw ['-'] then
      setAdd variants (pyReplace raw ['-'] [enDash])
    else variants
  variants

example : generate_placeholder_variants (strL "[Foo]") = [strL "[Foo]"] := by decide

example : generate_placeholder_variants (strL "[Foo-Bar]") =
    [strL "[Foo-Bar]", strL "[Foo–Bar]"] := by decide

/-- Constant `DECLARED_PLACEHOLDERS` from `script.py`. -/
def DECLARED_PLACEHOLDERS : List PyStr := [
  strL "[Programme Title]",
  strL "[Learner Registration Number]",
  strL "[Learner Name]",
  strL "[Assignment Title]",
  strL "[Assessor Name]",
  strL "[Unit/Component Number and Title]",
  strL "[Targeted Learning Aims/Assessment Criteria (Initial)]",
  strL "[First Submission - Deadline]",
  strL "[First Submission - Date Submitted]",
  strL "[Extension Approved (Y/N)]",
  strL "[Initial - General Comments]",
  strL "[Initial - Learner Signature (Name or File Path)]",
  strL "[Initial - Learner Declaration Date]",
  strL "[Initial - Assessor Signature (Name or File Path)]",
  strL "[Initial - Assessor Declaration Date]",
  strL "[Initial - Date of Feedback to Learner]",
  strL "[Resubmission - Authorised by Lead Internal Verifier (Name)]",
  strL "[Resubmission - Authorisation Date]",
  strL "[Resubmission - Deadline]",
  strL "[Resubmission - Date Submitted]",
  strL "[Resubmission - General Comments]",
  strL "[Resubmission - Learner Signature (Name or File Path)]",
  strL "[Resubmission - Learner Declaration Date]",
  strL "[Resubmission - Assessor Signature (Name or File Path)]",
  strL "[Resubmission - Assessor Declaration Date]",
  strL "[Resubmission - Date of Feedback to Learner]",
  strL "[Retake - Deadline]",
  strL "[Retake - Date Submitted]",
  strL "[Retake - General Comments]",
  strL "[Retake - Learner Signature (Name or File Path)]",
  strL "[Retake - Learner Declaration Date]",
  strL "[Retake - Assessor Signature (Name or File Path)]",
  strL "[Retake - Assessor Declaration Date]",
  strL "[Retake - Date of Feedback to Learner]"]

/-- A CSV row: an insertion-ordered mapping from column name to cell text. -/
abbrev Row := List (PyStr × PyStr)

/-- Python `row.get(k, '')` / `row.get(k) or ''` on a string-valued row. -/
def rowGet (row : Row) (k : PyStr) : PyStr :=
  ((row.find? (fun kv => kv.1 == k)).map Prod.snd).getD []

/-- Column-name derivation for a declared token:
`placeholder.strip().lstrip('[').rstrip(']')`. -/
def column_name_of (placeholder : PyStr) : PyStr :=
  pyRStripChar ']' (pyLStripChar '[' (pyStrip placeholder))

/-- The indexed criteria key `f'[{pre}{i}]'`. -/
def bracketKey (pre : PyStr) (i : Nat) : PyStr :=
  '[' :: (pre ++ Nat.toDigits 10 i ++ [']'])

/-- The `for i, (target, achieved) in enumerate(zip(ts, ys), 1)` loop of
`replace_all_placeholders`, as the sequence of dict assignments it performs. -/
def criteria_inserts (pre1 pre2 : PyStr) (ts ys : List PyStr) :
    List (PyStr × PyStr) :=
  ((ts.zip ys).enumFrom 1).flatMap
    (fun p => [(bracketKey pre1 p.1, p.2.1), (bracketKey pre2 p.1, p.2.2)])

/-- The declared-placeholder loop of `replace_all_placeholders`, as the
sequence of dict assignments it performs. -/
def declared_inserts (row : Row) : List (PyStr × PyStr) :=
  DECLARED_PLACEHOLDERS.flatMap (fun placeholder =>
    (generate_placeholder_variants placeholder).map
      (fun variant => (variant, pyStrip (rowGet row (column_name_of placeholder)))))

/-- All dict assignments performed by `replace_all_placeholders` while
building `replacement_map`, in program order. -/
def build_insertions (row : Row) : List (PyStr × PyStr) :=
  let initial_targeted := pyStrip (rowGet row (strL "Initial - Targeted Criteria"))
  let initial_achieved := pyStrip (rowGet row (strL "Initial - Criteria Achieved"))
  let ip := process_criteria initial_targeted initial_achieved 3
  let resub_targeted := pyStrip (rowGet row (strL "Resubmission - Targeted Criteria"))
  let resub_achieved := pyStrip (rowGet row (strL "Resubmission - Criteria Achieved"))
  let rp := process_criteria resub_targeted resub_achieved 5
  criteria_inserts (strL "ITC") (strL "ICA") ip.1 ip.2
    ++ criteria_inserts (strL "RTC") (strL "RCA") rp.1 rp.2
    ++ declared_inserts row

/-- Python dict assignment `m[k] = v` on an insertion-ordered association
list: overwrite in place if the key exists, else append. -/
def dictInsert (m : List (PyStr × PyStr)) (k v : PyStr) : List (PyStr × PyStr) :=
  if m.any (fun kv => kv.1 == k) then
    m.map (fun kv => if kv.1 == k then (k, v) else kv)
  else m ++ [(k, v)]

/-- The `replacement_map` built by `replace_all_placeholders` for one row. -/
def build_replacement_map (row : Row) : List (PyStr × PyStr) :=
  (build_insertions row).foldl (fun m kv => dictInsert m kv.1 kv.2) []

/-- Function `replace_all_placeholders` from `script.py`. -/
def replace_all_placeholders (doc : Document) (row : Row) : Document :=
  replace_placeholders doc (build_replacement_map row)

/-- A Python exception as observed by the worker's two `except` clauses:
`specific` is true for `IOError`/`ValueError`/`KeyError`. -/
structure PyExc where
  specific : Bool
  msg : PyStr
deriving DecidableEq

/-- Serialized document bytes. -/
abbrev Bytes := List Nat

/-- The error string the worker reports for a caught exception. -/
def wrap_error (e : PyExc) : PyStr :=
  if e.specific then strL "Error processing row: " ++ e.msg
  else strL "Unexpected error: " ++ e.msg

/-- Worker `_process_single_row` from `script.py`.  The two effectful steps —
`Document(template_path)` and `doc.save(...)` — are abstracted as fallible
functions supplied by the environment; any exception they raise is caught
and turned into the `(index, (None, message))` outcome, here modelled as
`(index, Except.error message)`. -/
def process_single_row (loadDoc : PyStr → Except PyExc Document)
    (saveDoc : Document → Except PyExc Bytes)
    (args : Nat × Row × PyStr) : Nat × Except PyStr (PyStr × Bytes) :=
  let index := args.1
  let row := args.2.1
  let template_path := args.2.2
  match loadDoc template_path with
  | .error e => (index, .error (wrap_error e))
  | .ok doc =>
    let doc2 := replace_all_placeholders doc row
    let name := pyStrip (rowGet row (strL "Learner Name"))
    let reg := pyStrip (rowGet row (strL "Learner Registration Number"))
    let filename := pyStrip (name ++ [' '] ++ reg ++ strL ".docx")
    match saveDoc doc2 with
    | .error e => (index, .error (wrap_error e))
    | .ok doc_bytes => (index, .ok (filename, doc_bytes))

/-- A progress-callback event of `generate_documents_from_csv`. -/
inductive Event where
  | start (total_rows : Nat)
  | row_done (index : Nat) (filename : PyStr)
  | row_error (index : Nat) (error : PyStr)
  | complete (generated total_rows : Nat)
deriving DecidableEq

/-- Collect the per-row events and the generated documents from the worker
results, as the driver's result loop does. -/
def collect_results (results : List (Nat × Except PyStr (PyStr × Bytes))) :
    List Event × List (PyStr × Bytes) :=
  results.foldl
    (fun acc r =>
      match r.2 with
      | .error e => (acc.1 ++ [Event.row_error r.1 e], acc.2)
      | .ok fb => (acc.1 ++ [Event.row_done r.1 fb.1], acc.2 ++ [fb]))
    ([], [])

/-- Driver `generate_documents_from_csv` from `script.py`.  The filesystem is
modelled as the list of existing paths; the CSV reader as the list of rows it
yields; worker-pool completion order as input order (the claims checked here
are order-independent).  A missing template or CSV raises (returns
`Except.error`) before any row is processed or any event emitted. -/
def generate_documents_from_csv (fs : List PyStr)
    (loadDoc : PyStr → Except PyExc Document)
    (saveDoc : Document → Except PyExc Bytes)
    (csv_path template_path : PyStr) (rows : List Row) :
    Except PyStr (List Event × List (PyStr × Bytes)) :=
  if template_path ∈ fs then
    if csv_path ∈ fs then
      let total_rows := rows.length
      let results := rows.enum.map
        (fun p => process_single_row loadDoc saveDoc (p.1, p.2, template_path))
      let collected := collect_results results
      .ok (Event.start total_rows :: collected.1
            ++ [Event.complete collected.2.length total_rows], collected.2)
    else .error (strL "CSV not found: " ++ csv_path)
  else .error (strL "Template not found: " ++ template_path)


/-! ### Helper lemmas about `process_criteria` -/

/-- The Y/N marker of a single targeted criterion against an achieved field. -/
def ynMark (achieved : PyStr) (t : PyStr) : PyStr :=
  if t ∈ cleanCriteria achieved then strY else strN

lemma process_criteria_fst (t a : PyStr) (m : Nat) :
    (process_criteria t a m).1
      = (cleanCriteria t ++ List.replicate (m - (cleanCriteria t).length) []).take m := rfl

lemma process_criteria_snd (t a : PyStr) (m : Nat) :
    (process_criteria t a m).2
      = ((cleanCriteria t).map (ynMark a)
          ++ List.replicate (m - (cleanCriteria t).length) []).take m := by
  simp only [process_criteria, List.length_map]
  rfl

lemma pad_take_length (l : List PyStr) (x : PyStr) (m : Nat) :
    ((l ++ List.replicate (m - l.length) x).take m).length = m := by
  simp only [List.length_take, List.length_append, List.length_replicate]
  omega

lemma getD_pad_take (l : List PyStr) (x : PyStr) (m i : Nat)
    (him : i < m) (hil : i < l.length) :
    ((l ++ List.replicate (m - l.length) x).take m).getD i [] = l.getD i [] := by
  have h1 : i < ((l ++ List.replicate (m - l.length) x).take m).length := by
    rw [pad_take_length]; exact him
  rw [List.getD_eq_getElem _ _ h1, List.getD_eq_getElem _ _ hil]
  rw [List.getElem_take, List.getElem_append_left hil]

/-! ### Claim theorems C1 and C2 -/

/-- C1: for every pair of input strings and every (non-negative) `maxCriteria`,
`process_criteria` returns two lists each of length exactly `maxCriteria`;
padding with empty strings happens on the right, and truncation is positional,
applied after the achievement vector has been computed over the full
comma-split targeted list; in particular
`process("A,B,C,D", "A,D", 3) == (["A","B","C"], ["Y","N","N"])`. -/
theorem btec_c1 (t a : PyStr) (m : Nat) :
    ((process_criteria t a m).1.length = m ∧ (process_criteria t a m).2.length = m)
    ∧ (process_criteria t a m).1
        = (cleanCriteria t ++ List.replicate (m - (cleanCriteria t).length) []).take m
    ∧ (process_criteria t a m).2
        = ((cleanCriteria t).map (ynMark a)
            ++ List.replicate (m - (cleanCriteria t).length) []).take m
    ∧ process_criteria (strL "A,B,C,D") (strL "A,D") 3
        = ([strL "A", strL "B", strL "C"], [strY, strN, strN]) := by
  refine ⟨⟨?_, ?_⟩, process_criteria_fst t a m, process_criteria_snd t a m, by decide⟩
  · rw [process_criteria_fst]; exact pad_take_length _ _ _
  · rw [process_criteria_snd]
    have := pad_take_length ((cleanCriteria t).map (ynMark a)) [] m
    rw [List.length_map] at this
    exact this

/-- C2: `process_criteria` tokenizes both fields on commas with whitespace
trimming and empty pieces dropped, and for each in-range non-padding position
the achievement entry is `"Y"` iff that exact trimmed targeted string occurs
(by exact string equality) anywhere in the trimmed achieved list, else `"N"`;
in particular `process("A, B, C", "B", 3) == (["A","B","C"], ["N","Y","N"])`. -/
theorem btec_c2 :
    (∀ t a m i, i < m → i < (cleanCriteria t).length →
      ((process_criteria t a m).1.getD i [] = (cleanCriteria t).getD i []
        ∧ ((process_criteria t a m).2.getD i [] = strY
            ∨ (process_criteria t a m).2.getD i [] = strN)
        ∧ ((process_criteria t a m).2.getD i [] = strY
            ↔ (cleanCriteria t).getD i [] ∈ cleanCriteria a)))
    ∧ process_criteria (strL "A, B, C") (strL "B") 3
        = ([strL "A", strL "B", strL "C"], [strN, strY, strN]) := by
  refine ⟨?_, by decide⟩
  intro t a m i him hil
  have hfst : (process_criteria t a m).1.getD i [] = (cleanCriteria t).getD i [] := by
    rw [process_criteria_fst]
    exact getD_pad_take _ _ _ _ him hil
  have himap : i < ((cleanCriteria t).map (ynMark a)).length := by
    rw [List.length_map]; exact hil
  have hsnd : (process_criteria t a m).2.getD i []
      = ynMark a ((cleanCriteria t).getD i []) := by
    rw [process_criteria_snd]
    have h1 := getD_pad_take ((cleanCriteria t).map (ynMark a)) [] m i him himap
    rw [List.length_map] at h1
    rw [h1, List.getD_eq_getElem _ _ himap, List.getD_eq_getElem _ _ hil,
      List.getElem_map]
  refine ⟨hfst, ?_, ?_⟩
  · rw [hsnd, ynMark]
    split
    · exact Or.inl rfl
    · exact Or.inr rfl
  · rw [hsnd, ynMark]
    constructor
    · intro h
      by_contra hmem
      rw [if_neg hmem] at h
      exact absurd h (by decide)
    · intro hmem
      rw [if_pos hmem]

/-- C2 witness: the claim theorem instantiated at
`targeted = "A, B, C"`, `achieved = "B"`, `maxCriteria = 3`, `i = 1`. -/
theorem btec_c2_witness :
    (process_criteria (strL "A, B, C") (strL "B") 3).1.getD 1 []
        = (cleanCriteria (strL "A, B, C")).getD 1 []
      ∧ ((process_criteria (strL "A, B, C") (strL "B") 3).2.getD 1 [] = strY
          ∨ (process_criteria (strL "A, B, C") (strL "B") 3).2.getD 1 [] = strN)
      ∧ ((process_criteria (strL "A, B, C") (strL "B") 3).2.getD 1 [] = strY
          ↔ (cleanCriteria (strL "A, B, C")).getD 1 [] ∈ cleanCriteria (strL "B")) :=
  btec_c2.1 (strL "A, B, C") (strL "B") 3 1 (by decide) (by decide)

/-! ### Claim theorem C3: scope of substitution -/

lemma apply_replacements_no_match (replacements : List (PyStr × PyStr)) (s : PyStr)
    (h : ∀ kv ∈ replacements, pyContains s kv.1 = false) :
    apply_replacements replacements s = (s, false) := by
  induction replacements with
  | nil => rfl
  | cons kv rest ih =>
    have hkv : pyContains s kv.1 = false := h kv (List.mem_cons_self kv rest)
    have hrest : ∀ p ∈ rest, pyContains s p.1 = false :=
      fun p hp => h p (List.mem_cons_of_mem kv hp)
    simp only [apply_replacements, List.foldl_cons, hkv, Bool.false_eq_true,
      if_false] at *
    exact ih hrest

/-- C3: the substitution engine modifies only paragraphs inside table cells
whose concatenated run text contains at least one replacement-map key — the
body paragraphs outside tables are returned unchanged, and an in-table
paragraph none of whose text contains a map key is returned with its runs
unmodified. -/
theorem btec_c3 (replacements : List (PyStr × PyStr)) (doc : Document)
    (p : Paragraph) :
    (replace_placeholders doc replacements).paragraphs = doc.paragraphs
    ∧ ((∀ kv ∈ replacements, pyContains (paragraph_full_text p) kv.1 = false) →
        replace_text_in_paragraph p replacements = p) := by
  constructor
  · rfl
  · intro h
    simp only [replace_text_in_paragraph,
      apply_replacements_no_match replacements (paragraph_full_text p) h,
      Bool.false_eq_true, if_false]

/-- C3 witness: with the replacement map of the empty row, a table-cell
paragraph holding only the bracketed token `"[NotAToken]"` (outside the
declared catalog and the criteria families) passes through unmodified, and
body paragraphs are untouched. -/
theorem btec_c3_witness :
    (replace_placeholders ⟨[⟨[strL "body text"]⟩], []⟩
        (build_replacement_map [])).paragraphs = [⟨[strL "body text"]⟩]
    ∧ replace_text_in_paragraph ⟨[strL "[NotAToken]"]⟩ (build_replacement_map [])
        = ⟨[strL "[NotAToken]"]⟩ :=
  ⟨(btec_c3 (build_replacement_map []) ⟨[⟨[strL "body text"]⟩], []⟩
      ⟨[strL "[NotAToken]"]⟩).1,
    (btec_c3 (build_replacement_map []) ⟨[⟨[strL "body text"]⟩], []⟩
      ⟨[strL "[NotAToken]"]⟩).2 (by decide)⟩

/-! ### Claim theorems C5, C8, C9: the placeholder catalog and its variants -/

lemma mem_setAdd_iff (s : List PyStr) (x y : PyStr) :
    x ∈ setAdd s y ↔ x ∈ s ∨ x = y := by
  unfold setAdd
  split
  · next hy =>
    constructor
    · exact Or.inl
    · rintro (h | rfl)
      · exact h
      · exact hy
  · simp [List.mem_append]

lemma mem_ite_setAdd {x : PyStr} {s : List PyStr} {y : PyStr} {c : Prop}
    [Decidable c] (h : x ∈ s) : x ∈ (if c then setAdd s y else s) := by
  split
  · exact (mem_setAdd_iff s x y).mpr (Or.inl h)
  · exact h

/-- C5: the variant set always contains the original token (hence is never
empty); any member is the token itself, the token with `"]"` appended, or a
dash-swapped copy that is present only when the swapped-out dash character
actually occurs in the token; `variantsOf("[Foo-Bar]")` contains both
`"[Foo-Bar]"` and `"[Foo–Bar]"`, and `variantsOf("[Foo]")` is exactly
`{"[Foo]"}`. -/
theorem btec_c5 :
    (∀ p, p ∈ generate_placeholder_variants p)
    ∧ (∀ p v, v ∈ generate_placeholder_variants p →
        v = p ∨ v = p ++ [']']
        ∨ (pyContains p [enDash] = true ∧ v = pyReplace p [enDash] ['-'])
        ∨ (pyContains p ['-'] = true ∧ v = pyReplace p ['-'] [enDash]))
    ∧ generate_placeholder_variants (strL "[Foo]") = [strL "[Foo]"]
    ∧ strL "[Foo-Bar]" ∈ generate_placeholder_variants (strL "[Foo-Bar]")
    ∧ strL "[Foo–Bar]" ∈ generate_placeholder_variants (strL "[Foo-Bar]") := by
  refine ⟨?_, ?_, by decide, by decide, by decide⟩
  · intro p
    simp only [generate_placeholder_variants]
    split_ifs <;> simp [mem_setAdd_iff]
  · intro p v hv
    simp only [generate_placeholder_variants] at hv
    split_ifs at hv with h1 h2 h3 <;> simp only [mem_setAdd_iff] at hv <;>
      simp only [List.mem_singleton, List.not_mem_nil, false_or] at hv <;> tauto

/-- C5 witness: the characterization applied to the variant `"[A–B]"` of the
token `"[A-B]"`. -/
theorem btec_c5_witness :
    strL "[A–B]" = strL "[A-B]" ∨ strL "[A–B]" = strL "[A-B]" ++ [']']
    ∨ (pyContains (strL "[A-B]") [enDash] = true
        ∧ strL "[A–B]" = pyReplace (strL "[A-B]") [enDash] ['-'])
    ∨ (pyContains (strL "[A-B]") ['-'] = true
        ∧ strL "[A–B]" = pyReplace (strL "[A-B]") ['-'] [enDash]) :=
  btec_c5.2.1 (strL "[A-B]") (strL "[A–B]") (by decide)

/-- C8 counterexample: the declared catalog does not have 33 entries. -/
theorem btec_c8_counterexample : ¬ DECLARED_PLACEHOLDERS.length = 33 := by decide

/-- C8 (amended): the placeholder catalog used by the replacement-map builder
is a fixed ordered list of exactly 34 declared bracketed labels. -/
theorem btec_c8 :
    DECLARED_PLACEHOLDERS.length = 34
    ∧ DECLARED_PLACEHOLDERS.all
        (fun p => pyStartsWith p ['['] && pyEndsWith p [']']) = true := by decide

/-- C9 counterexample: the token `"Foo"` does not end with `"]"`, yet its
variant set does not contain `"Foo]"` — the bracket-append variant also
requires the token to start with `"["`. -/
theorem btec_c9_counterexample :
    pyEndsWith (strL "Foo") [']'] = false
    ∧ strL "Foo" ++ [']'] ∉ generate_placeholder_variants (strL "Foo") := by decide

/-- C9 (amended): for every token that starts with `"["` and does not end
with `"]"`, the variant set contains the token with `"]"` appended. -/
theorem btec_c9 (p : PyStr) (h1 : pyStartsWith p ['['] = true)
    (h2 : pyEndsWith p [']'] = false) :
    p ++ [']'] ∈ generate_placeholder_variants p := by
  simp only [generate_placeholder_variants, h1, h2, Bool.not_false, Bool.and_self,
    if_true]
  apply mem_ite_setAdd
  apply mem_ite_setAdd
  simp [mem_setAdd_iff]

/-- C9 witness: the bracket-completed variant of the unterminated token
`"[Foo"`. -/
theorem btec_c9_witness :
    strL "[Foo" ++ [']'] ∈ generate_placeholder_variants (strL "[Foo") :=
  btec_c9 (strL "[Foo") (by decide) (by decide)

/-! ### Claim theorem C4: consistency of the replacement map -/

lemma process_criteria_length_fst (t a : PyStr) (m : Nat) :
    (process_criteria t a m).1.length = m := by
  rw [process_criteria_fst]; exact pad_take_length _ _ _

lemma process_criteria_length_snd (t a : PyStr) (m : Nat) :
    (process_criteria t a m).2.length = m := by
  rw [process_criteria_snd]
  have h := pad_take_length ((cleanCriteria t).map (ynMark a)) [] m
  rw [List.length_map] at h
  exact h

/-- The criteria keys `[<pre1>1] [<pre2>1] ... [<pre1>n] [<pre2>n]` in the
order `replace_all_placeholders` assigns them. -/
def criteria_keys (pre1 pre2 : PyStr) (n : Nat) : List PyStr :=
  (List.range' 1 n).flatMap (fun i => [bracketKey pre1 i, bracketKey pre2 i])

/-- All keys assigned into the replacement map, in program order.  They do
not depend on the row. -/
def all_map_keys : List PyStr :=
  criteria_keys (strL "ITC") (strL "ICA") 3
    ++ criteria_keys (strL "RTC") (strL "RCA") 5
    ++ DECLARED_PLACEHOLDERS.flatMap generate_placeholder_variants

lemma map_fst_enumFrom_flatMap (pre1 pre2 : PyStr) (l : List (PyStr × PyStr)) :
    ∀ n, ((l.enumFrom n).flatMap
        (fun p => [(bracketKey pre1 p.1, p.2.1), (bracketKey pre2 p.1, p.2.2)])).map
          Prod.fst
      = (List.range' n l.length).flatMap
          (fun i => [bracketKey pre1 i, bracketKey pre2 i]) := by
  induction l with
  | nil => intro n; rfl
  | cons x xs ih =>
    intro n
    simp only [List.enumFrom, List.length_cons, List.range'_succ,
      List.flatMap_cons, List.map_append, List.map_cons, List.map_nil]
    rw [ih (n + 1)]

lemma map_fst_criteria_inserts (pre1 pre2 : PyStr) (ts ys : List PyStr) :
    (criteria_inserts pre1 pre2 ts ys).map Prod.fst
      = (List.range' 1 (min ts.length ys.length)).flatMap
          (fun i => [bracketKey pre1 i, bracketKey pre2 i]) := by
  unfold criteria_inserts
  rw [map_fst_enumFrom_flatMap, List.length_zip]

lemma build_insertions_keys (row : Row) :
    (build_insertions row).map Prod.fst = all_map_keys := by
  simp only [build_insertions, List.map_append, map_fst_criteria_inserts,
    process_criteria_length_fst, process_criteria_length_snd, Nat.min_self,
    declared_inserts, List.map_flatMap, List.map_map]
  simp [all_map_keys, criteria_keys, Function.comp_def]

lemma all_map_keys_nodup : all_map_keys.Nodup := by decide

lemma eq_of_mem_of_nodup_keys {α β : Type} :
    ∀ (l : List (α × β)) (k : α) (v1 v2 : β),
      (l.map Prod.fst).Nodup → (k, v1) ∈ l → (k, v2) ∈ l → v1 = v2 := by
  intro l
  induction l with
  | nil => intro k v1 v2 _ h; cases h
  | cons hd tl ih =>
    intro k v1 v2 hnd h1 h2
    rw [List.map_cons, List.nodup_cons] at hnd
    rcases List.mem_cons.mp h1 with e1 | m1 <;> rcases List.mem_cons.mp h2 with e2 | m2
    · have e3 := e1.trans e2.symm
      simp only [Prod.mk.injEq, true_and] at e3
      exact e3
    · exfalso
      apply hnd.1
      rw [← e1]
      exact List.mem_map.mpr ⟨(k, v2), m2, rfl⟩
    · exfalso
      apply hnd.1
      rw [← e2]
      exact List.mem_map.mpr ⟨(k, v1), m1, rfl⟩
    · exact ih k v1 v2 hnd.2 m1 m2

lemma mem_dictInsert (m : List (PyStr × PyStr)) (k v : PyStr) (p : PyStr × PyStr)
    (h : p ∈ dictInsert m k v) : p ∈ m ∨ p = (k, v) := by
  unfold dictInsert at h
  split at h
  · rcases List.mem_map.mp h with ⟨q, hq, he⟩
    by_cases hqk : (q.1 == k) = true
    · rw [if_pos hqk] at he
      exact Or.inr he.symm
    · rw [if_neg hqk] at he
      exact Or.inl (he ▸ hq)
  · rcases List.mem_append.mp h with h2 | h2
    · exact Or.inl h2
    · exact Or.inr (List.mem_singleton.mp h2)

lemma mem_foldl_dictInsert :
    ∀ (l m : List (PyStr × PyStr)) (p : PyStr × PyStr),
      p ∈ l.foldl (fun acc kv => dictInsert acc kv.1 kv.2) m → p ∈ m ∨ p ∈ l := by
  intro l
  induction l with
  | nil =>
    intro m p h
    exact Or.inl h
  | cons hd tl ih =>
    intro m p h
    rw [List.foldl_cons] at h
    rcases ih _ p h with h2 | h2
    · rcases mem_dictInsert _ _ _ _ h2 with h3 | h3
      · exact Or.inl h3
      · right
        rw [h3]
        exact List.mem_cons_self hd tl
    · exact Or.inr (List.mem_cons_of_mem _ h2)

lemma mem_declared_inserts (row : Row) (ph : PyStr) (hph : ph ∈ DECLARED_PLACEHOLDERS)
    (v : PyStr) (hv : v ∈ generate_placeholder_variants ph) :
    (v, pyStrip (rowGet row (column_name_of ph))) ∈ declared_inserts row := by
  unfold declared_inserts
  exact List.mem_flatMap.mpr ⟨ph, hph, List.mem_map_of_mem _ hv⟩

/-- C4: for every row, the replacement map maps no key to two different
values: the sequence of assignments `replace_all_placeholders` performs never
assigns the same key two different values (the criteria-token keys and the
declared-token variant keys never collide), the resulting dict is equally
consistent, and every spelling variant of one declared token is assigned the
identical trimmed row value of that token's column. -/
theorem btec_c4 (row : Row) :
    (∀ k v1 v2, (k, v1) ∈ build_insertions row → (k, v2) ∈ build_insertions row →
      v1 = v2)
    ∧ (∀ k v1 v2, (k, v1) ∈ build_replacement_map row →
        (k, v2) ∈ build_replacement_map row → v1 = v2)
    ∧ (∀ ph ∈ DECLARED_PLACEHOLDERS, ∀ v ∈ generate_placeholder_variants ph,
        (v, pyStrip (rowGet row (column_name_of ph))) ∈ build_insertions row) := by
  have hnd : ((build_insertions row).map Prod.fst).Nodup := by
    rw [build_insertions_keys]
    exact all_map_keys_nodup
  have hins : ∀ k v1 v2, (k, v1) ∈ build_insertions row →
      (k, v2) ∈ build_insertions row → v1 = v2 :=
    fun k v1 v2 h1 h2 => eq_of_mem_of_nodup_keys _ k v1 v2 hnd h1 h2
  refine ⟨hins, ?_, ?_⟩
  · intro k v1 v2 h1 h2
    rcases mem_foldl_dictInsert _ _ _ h1 with h1' | h1'
    · cases h1'
    rcases mem_foldl_dictInsert _ _ _ h2 with h2' | h2'
    · cases h2'
    exact hins k v1 v2 h1' h2'
  · intro ph hph v hv
    simp only [build_insertions]
    refine List.mem_append.mpr (Or.inr ?_)
    exact mem_declared_inserts row ph hph v hv

/-- C4 witness: on the empty row, the declared token `"[Learner Name]"` is
assigned its (empty) trimmed column value, and the two assignments reaching
the key `"[ITC1]"` agree. -/
theorem btec_c4_witness :
    (strL "[Learner Name]",
        pyStrip (rowGet [] (column_name_of (strL "[Learner Name]"))))
      ∈ build_insertions []
    ∧ ([] : PyStr) = [] :=
  ⟨(btec_c4 []).2.2 (strL "[Learner Name]") (by decide)
      (strL "[Learner Name]") (by decide),
    (btec_c4 []).1 (strL "[ITC1]") [] [] (by decide) (by decide)⟩

/-! ### Claim theorems C6, C7, C10: the per-row worker and the driver -/

/-- The event the driver's result loop emits for one worker result. -/
def eventOf (r : Nat × Except PyStr (PyStr × Bytes)) : Event :=
  match r.2 with
  | .error e => Event.row_error r.1 e
  | .ok fb => Event.row_done r.1 fb.1

/-- The generated document one worker result contributes, if any. -/
def docOf (r : Nat × Except PyStr (PyStr × Bytes)) : Option (PyStr × Bytes) :=
  match r.2 with
  | .error _ => none
  | .ok fb => some fb

lemma collect_results_go (results : List (Nat × Except PyStr (PyStr × Bytes))) :
    ∀ acc : List Event × List (PyStr × Bytes),
      results.foldl
        (fun acc r =>
          match r.2 with
          | .error e => (acc.1 ++ [Event.row_error r.1 e], acc.2)
          | .ok fb => (acc.1 ++ [Event.row_done r.1 fb.1], acc.2 ++ [fb]))
        acc
      = (acc.1 ++ results.map eventOf, acc.2 ++ results.filterMap docOf) := by
  induction results with
  | nil => intro acc; simp
  | cons r rest ih =>
    intro acc
    rw [List.foldl_cons, ih]
    rcases hr : r.2 with e | fb <;> simp [eventOf, docOf, hr]

lemma collect_results_spec (results : List (Nat × Except PyStr (PyStr × Bytes))) :
    collect_results results = (results.map eventOf, results.filterMap docOf) := by
  unfold collect_results
  rw [collect_results_go]
  simp

lemma process_single_row_fst (loadDoc : PyStr → Except PyExc Document)
    (saveDoc : Document → Except PyExc Bytes) (i : Nat) (row : Row) (tpl : PyStr) :
    (process_single_row loadDoc saveDoc (i, row, tpl)).1 = i := by
  rcases hl : loadDoc tpl with e | d
  · simp [process_single_row, hl]
  · rcases hs : saveDoc (replace_all_placeholders d row) with e | b <;>
      simp [process_single_row, hl, hs]

/-- C6: any failure inside the per-row worker is caught there and surfaces
as a `row_error` event carrying that row's index and an error description,
while every other row's outcome is still reported (and successful rows'
documents are all collected); only a missing template or missing input table
make the driver raise, and then no row is processed and no event emitted. -/
theorem btec_c6 (fs : List PyStr) (loadDoc : PyStr → Except PyExc Document)
    (saveDoc : Document → Except PyExc Bytes) (csv_path template_path : PyStr)
    (rows : List Row) :
    ((template_path ∉ fs ∨ csv_path ∉ fs) →
      ∃ msg, generate_documents_from_csv fs loadDoc saveDoc csv_path template_path
          rows = .error msg)
    ∧ (template_path ∈ fs → csv_path ∈ fs →
      ∃ events docs,
        generate_documents_from_csv fs loadDoc saveDoc csv_path template_path rows
            = .ok (events, docs)
        ∧ ∀ i row, rows[i]? = some row →
            (∀ e, (process_single_row loadDoc saveDoc (i, row, template_path)).2
                = .error e → Event.row_error i e ∈ events)
            ∧ ∀ fn b, (process_single_row loadDoc saveDoc (i, row, template_path)).2
                = .ok (fn, b) →
              Event.row_done i fn ∈ events ∧ (fn, b) ∈ docs) := by
  constructor
  · intro h
    by_cases ht : template_path ∈ fs
    · have hc : csv_path ∉ fs := by
        rcases h with h | h
        · exact absurd ht h
        · exact h
      refine ⟨strL "CSV not found: " ++ csv_path, ?_⟩
      unfold generate_documents_from_csv
      rw [if_pos ht, if_neg hc]
    · refine ⟨strL "Template not found: " ++ template_path, ?_⟩
      unfold generate_documents_from_csv
      rw [if_neg ht]
  · intro ht hc
    refine ⟨(Event.start rows.length
          :: ((rows.enum.map (fun p =>
                process_single_row loadDoc saveDoc (p.1, p.2, template_path))).map
              eventOf
            ++ [Event.complete ((rows.enum.map (fun p =>
                  process_single_row loadDoc saveDoc
                    (p.1, p.2, template_path))).filterMap docOf).length
                rows.length])),
        (rows.enum.map (fun p =>
          process_single_row loadDoc saveDoc (p.1, p.2, template_path))).filterMap
          docOf, ?_, ?_⟩
    · simp only [generate_documents_from_csv, if_pos ht, if_pos hc,
        collect_results_spec]
      simp [List.cons_append]
    · intro i row hrow
      have hmem_enum : (i, row) ∈ rows.enum :=
        List.mk_mem_enum_iff_getElem?.mpr hrow
      have hmemr : process_single_row loadDoc saveDoc (i, row, template_path)
          ∈ rows.enum.map (fun p =>
              process_single_row loadDoc saveDoc (p.1, p.2, template_path)) :=
        List.mem_map_of_mem _ hmem_enum
      have hfst := process_single_row_fst loadDoc saveDoc i row template_path
      constructor
      · intro e he
        have hev : eventOf (process_single_row loadDoc saveDoc
            (i, row, template_path)) = Event.row_error i e := by
          simp only [eventOf, he, hfst]
        apply List.mem_cons_of_mem
        apply List.mem_append_left
        rw [← hev]
        exact List.mem_map_of_mem eventOf hmemr
      · intro fn b he
        have hev : eventOf (process_single_row loadDoc saveDoc
            (i, row, template_path)) = Event.row_done i fn := by
          simp only [eventOf, he, hfst]
        constructor
        · apply List.mem_cons_of_mem
          apply List.mem_append_left
          rw [← hev]
          exact List.mem_map_of_mem eventOf hmemr
        · apply List.mem_filterMap.mpr
          refine ⟨process_single_row loadDoc saveDoc (i, row, template_path),
            hmemr, ?_⟩
          simp only [docOf, he]

/-- C6 witness: a present template and CSV with a single (empty) row, a
loader and serializer that succeed. -/
theorem btec_c6_witness :
    ∃ events docs,
      generate_documents_from_csv [strL "t.docx", strL "d.csv"]
          (fun _ => .ok ⟨[], []⟩) (fun _ => .ok []) (strL "d.csv") (strL "t.docx")
          [[]] = .ok (events, docs)
      ∧ ∀ i row, ([[]] : List Row)[i]? = some row →
          (∀ e, (process_single_row (fun _ => .ok ⟨[], []⟩) (fun _ => .ok [])
              (i, row, strL "t.docx")).2 = .error e →
            Event.row_error i e ∈ events)
          ∧ ∀ fn b, (process_single_row (fun _ => .ok ⟨[], []⟩) (fun _ => .ok [])
              (i, row, strL "t.docx")).2 = .ok (fn, b) →
            Event.row_done i fn ∈ events ∧ (fn, b) ∈ docs :=
  (btec_c6 [strL "t.docx", strL "d.csv"] (fun _ => .ok ⟨[], []⟩) (fun _ => .ok [])
    (strL "d.csv") (strL "t.docx") [[]]).2 (by decide) (by decide)

/-- C7 counterexample: for a row with empty Learner Name and Learner
Registration Number the worker succeeds, but the filename is the constant
`".docx"` — identical at two different row indices, so it is not an
index-based fallback name (no fallback exists in the code; the appended
extension merely keeps the stripped result non-blank). -/
theorem btec_c7_counterexample :
    (process_single_row (fun _ => .ok ⟨[], []⟩) (fun _ => .ok [])
        (0, [], strL "t.docx")).2 = .ok (strL ".docx", [])
    ∧ (process_single_row (fun _ => .ok ⟨[], []⟩) (fun _ => .ok [])
        (7, [], strL "t.docx")).2 = .ok (strL ".docx", []) :=
  ⟨rfl, rfl⟩

/-- C7 (amended): a row whose Learner Name and Learner Registration Number
are both empty or missing still succeeds and produces exactly one output
document, whose filename is the constant `".docx"` (never blank, because the
extension is appended before stripping; the code has no index-based
fallback). -/
theorem btec_c7 (loadDoc : PyStr → Except PyExc Document)
    (saveDoc : Document → Except PyExc Bytes) (i : Nat) (row : Row)
    (tpl : PyStr) (d : Document) (b : Bytes)
    (hname : pyStrip (rowGet row (strL "Learner Name")) = [])
    (hreg : pyStrip (rowGet row (strL "Learner Registration Number")) = [])
    (hload : loadDoc tpl = .ok d)
    (hsave : saveDoc (replace_all_placeholders d row) = .ok b) :
    process_single_row loadDoc saveDoc (i, row, tpl) = (i, .ok (strL ".docx", b)) := by
  have hps : pyStrip ([] ++ [' '] ++ [] ++ strL ".docx") = strL ".docx" := by decide
  simp only [process_single_row, hload, hsave, hname, hreg, hps]

/-- C7 witness: the amended claim applied to the empty row. -/
theorem btec_c7_witness :
    process_single_row (fun _ => .ok ⟨[], []⟩) (fun _ => .ok [])
        (3, [], strL "t.docx") = (3, .ok (strL ".docx", [])) :=
  btec_c7 (fun _ => .ok ⟨[], []⟩) (fun _ => .ok []) 3 [] (strL "t.docx")
    ⟨[], []⟩ [] (by decide) (by decide) rfl rfl

lemma dropWhile_append_docx (l : PyStr) :
    strL ".docx" <:+ (l ++ strL ".docx").dropWhile Char.isWhitespace := by
  induction l with
  | nil => decide
  | cons c cs ih =>
    by_cases hc : Char.isWhitespace c
    · simpa [List.dropWhile_cons, hc] using ih
    · simp only [List.cons_append, List.dropWhile_cons, hc, if_false]
      exact List.suffix_append (c :: cs) (strL ".docx")

lemma rdropWhile_append_docx (l : PyStr) :
    List.rdropWhile Char.isWhitespace (l ++ strL ".docx") = l ++ strL ".docx" := by
  rw [List.rdropWhile_eq_self_iff]
  intro hl
  rw [List.getLast_append' l (strL ".docx") (by decide)]
  decide

lemma strip_append_docx (l : PyStr) :
    strL ".docx" <:+ pyStrip (l ++ strL ".docx") := by
  unfold pyStrip
  rcases dropWhile_append_docx l with ⟨y, hy⟩
  rw [← hy, rdropWhile_append_docx y]
  exact List.suffix_append y (strL ".docx")

/-- C10: every filename the per-row worker returns on success ends with the
literal suffix `".docx"`, whatever the row contents (in particular also when
Learner Name and Learner Registration Number are empty). -/
theorem btec_c10 (loadDoc : PyStr → Except PyExc Document)
    (saveDoc : Document → Except PyExc Bytes) (i : Nat) (row : Row)
    (tpl fn : PyStr) (b : Bytes)
    (h : (process_single_row loadDoc saveDoc (i, row, tpl)).2 = .ok (fn, b)) :
    strL ".docx" <:+ fn := by
  rcases hl : loadDoc tpl with e | d
  · simp [process_single_row, hl] at h
  · rcases hs : saveDoc (replace_all_placeholders d row) with e | b2
    · simp [process_single_row, hl, hs] at h
    · simp only [process_single_row, hl, hs, Except.ok.injEq, Prod.mk.injEq] at h
      rw [← h.1]
      exact strip_append_docx _

/-- C10 witness: the filename the worker produces for a concrete row ends in
`".docx"`. -/
theorem btec_c10_witness : strL ".docx" <:+ strL "Alice 123.docx" :=
  btec_c10 (fun _ => .ok ⟨[], []⟩) (fun _ => .ok []) 0
    [(strL "Learner Name", strL "Alice"),
      (strL "Learner Registration Number", strL "123")]
    (strL "t.docx") (strL "Alice 123.docx") [] (by rfl)

end Btec
